import Mathlib

/-
  Verification development for the workflow-world-cloudflare repository.

  Shallow embedding of the core components:
  - the per-run coordinator (src/durable-objects/workflow-run.ts),
  - the tiered payload store (src/utils/r2.ts),
  - the run and step repositories (src/storage/runs.ts, src/storage/steps.ts),
  - the cursor pagination engine (src/utils/pagination.ts),
  - the idempotent queue dispatcher (src/queue/index.ts).

  JavaScript platform primitives that the code calls (JSON.stringify and
  JSON.parse, btoa and atob, Date.now, crypto-based id generation) are not
  repository code; they are modelled explicitly below, each with a comment
  stating the fragment of the platform behaviour that is captured.
-/

set_option maxHeartbeats 1000000

namespace WorkflowWorld

/-! ## Run and step status enumerations (src/types.ts, schema check constraints) -/

/-- Status of a workflow run: pending, running, completed, failed, cancelled or
paused, as fixed by the schema check constraint and the WorkflowRunStatus type. -/
inductive WorkflowRunStatus where
  | pending
  | running
  | completed
  | failed
  | cancelled
  | paused
  deriving DecidableEq, Repr

/-- Status of a step: pending, running, completed, failed or cancelled, as fixed
by the schema check constraint and the StepStatus type. -/
inductive StepStatus where
  | pending
  | running
  | completed
  | failed
  | cancelled
  deriving DecidableEq, Repr

/-! ## Run coordinator (src/durable-objects/workflow-run.ts)

The Durable Object holds an in-memory WorkflowState (or null before
initialization) plus durable storage under the single key "state".  Both are
made explicit here: a Coordinator carries the persisted snapshot and the
in-memory state.  Step membership sets are JS Set objects; only their
membership semantics matter, so they are embedded as Finset String. -/

/-- WorkflowState from workflow-run.ts: run identifier, status mirror, the three
step-identifier sets and the open metadata map (embedded as an association
list, latest binding first, matching JS object key update/read semantics). -/
structure WorkflowState where
  runId : String
  status : WorkflowRunStatus
  activeSteps : Finset String
  completedSteps : Finset String
  failedSteps : Finset String
  metadata : List (String × String)
  deriving DecidableEq

/-- A coordinator instance: the durable storage content under the key "state"
(none when nothing was ever persisted) and the in-memory workflowState field
(none before initialize has run). -/
structure Coordinator where
  storage : Option WorkflowState
  workflowState : Option WorkflowState
  deriving DecidableEq

/-- Error raised by the mutating coordinator operations when workflowState is
null: the thrown message is "Workflow state not initialized". -/
inductive CoordError where
  | notInitialized
  deriving DecidableEq, Repr

/-- persistState from workflow-run.ts: writes the current in-memory state to
durable storage; a no-op when workflowState is null. -/
def Coordinator.persistState (c : Coordinator) : Coordinator :=
  match c.workflowState with
  | none => c
  | some ws => { c with storage := some ws }

/-- Fresh state created by the initialize method when no persisted state
exists: status pending, all three step sets empty, empty metadata. -/
def freshState (runId : String) : WorkflowState :=
  { runId := runId
    status := WorkflowRunStatus.pending
    activeSteps := ∅
    completedSteps := ∅
    failedSteps := ∅
    metadata := [] }

/-- The initialize method of workflow-run.ts: load the persisted state if
present, otherwise create a fresh pending state and persist it at once. -/
def Coordinator.init (c : Coordinator) (runId : String) : Coordinator :=
  match c.storage with
  | some loaded => { c with workflowState := some loaded }
  | none =>
      Coordinator.persistState { c with workflowState := some (freshState runId) }

/-- startStep from workflow-run.ts: throws when not initialized (returning the
unchanged coordinator together with the error), otherwise adds the step id to
activeSteps and persists. -/
def Coordinator.startStep (c : Coordinator) (stepId : String) :
    Option CoordError × Coordinator :=
  match c.workflowState with
  | none => (some CoordError.notInitialized, c)
  | some ws =>
      let ws2 := { ws with activeSteps := insert stepId ws.activeSteps }
      (none, Coordinator.persistState { c with workflowState := some ws2 })

/-- completeStep from workflow-run.ts: throws when not initialized, otherwise
deletes the step id from activeSteps, adds it to completedSteps and persists. -/
def Coordinator.completeStep (c : Coordinator) (stepId : String) :
    Option CoordError × Coordinator :=
  match c.workflowState with
  | none => (some CoordError.notInitialized, c)
  | some ws =>
      let ws2 := { ws with
        activeSteps := ws.activeSteps.erase stepId
        completedSteps := insert stepId ws.completedSteps }
      (none, Coordinator.persistState { c with workflowState := some ws2 })

/-- failStep from workflow-run.ts: throws when not initialized, otherwise
deletes the step id from activeSteps, adds it to failedSteps and persists. -/
def Coordinator.failStep (c : Coordinator) (stepId : String) :
    Option CoordError × Coordinator :=
  match c.workflowState with
  | none => (some CoordError.notInitialized, c)
  | some ws =>
      let ws2 := { ws with
        activeSteps := ws.activeSteps.erase stepId
        failedSteps := insert stepId ws.failedSteps }
      (none, Coordinator.persistState { c with workflowState := some ws2 })

/-- canAcceptSteps from workflow-run.ts: false when workflowState is null,
otherwise true exactly when the status is running or pending. -/
def Coordinator.canAcceptSteps (c : Coordinator) : Bool :=
  match c.workflowState with
  | none => false
  | some ws =>
      ws.status = WorkflowRunStatus.running || ws.status = WorkflowRunStatus.pending

/-- getMetadata from workflow-run.ts: returns undefined (none) when
workflowState is null, otherwise the JS object property read on metadata. -/
def Coordinator.getMetadata (c : Coordinator) (key : String) : Option String :=
  match c.workflowState with
  | none => none
  | some ws => ws.metadata.lookup key

/-! ### Step-operation sequences on an initialized coordinator

For the step-set invariant the three mutating step operations are abstracted
to their action on the in-memory state; the agreement lemmas below tie this
action back to the methods themselves. -/

/-- One of the three step-membership operations of the coordinator. -/
inductive CoordOp where
  | start (stepId : String)
  | complete (stepId : String)
  | fail (stepId : String)
  deriving DecidableEq, Repr

/-- The step identifier an operation acts on. -/
def CoordOp.stepId : CoordOp → String
  | CoordOp.start s => s
  | CoordOp.complete s => s
  | CoordOp.fail s => s

/-- Whether the operation moves its step into a terminal set. -/
def CoordOp.isTerminal : CoordOp → Bool
  | CoordOp.start _ => false
  | CoordOp.complete _ => true
  | CoordOp.fail _ => true

/-- Action of a single step operation on the in-memory workflow state, exactly
as performed inside startStep, completeStep and failStep. -/
def applyOp (ws : WorkflowState) : CoordOp → WorkflowState
  | CoordOp.start s => { ws with activeSteps := insert s ws.activeSteps }
  | CoordOp.complete s =>
      { ws with
        activeSteps := ws.activeSteps.erase s
        completedSteps := insert s ws.completedSteps }
  | CoordOp.fail s =>
      { ws with
        activeSteps := ws.activeSteps.erase s
        failedSteps := insert s ws.failedSteps }

/-- Action of a sequence of step operations, applied left to right. -/
def applyOps (ws : WorkflowState) (ops : List CoordOp) : WorkflowState :=
  ops.foldl applyOp ws

/-- The three step-identifier sets of a state are pairwise disjoint. -/
def stepSetsDisjoint (ws : WorkflowState) : Prop :=
  (∀ s, s ∈ ws.activeSteps → s ∉ ws.completedSteps) ∧
  (∀ s, s ∈ ws.activeSteps → s ∉ ws.failedSteps) ∧
  (∀ s, s ∈ ws.completedSteps → s ∉ ws.failedSteps)

/-- An operation sequence is lifecycle-well-formed when no step identifier
receives any further operation after an operation that moved it into a
terminal set (completeStep or failStep). -/
def noOpAfterTerminal : List CoordOp → Bool
  | [] => true
  | op :: rest =>
      (if op.isTerminal then rest.all (fun op2 => op2.stepId != op.stepId) else true)
        && noOpAfterTerminal rest

theorem startStep_eq_applyOp (c : Coordinator) (ws : WorkflowState) (s : String)
    (h : c.workflowState = some ws) :
    c.startStep s =
      (none, Coordinator.persistState
        { c with workflowState := some (applyOp ws (CoordOp.start s)) }) := by
  simp [Coordinator.startStep, h, applyOp]

theorem completeStep_eq_applyOp (c : Coordinator) (ws : WorkflowState) (s : String)
    (h : c.workflowState = some ws) :
    c.completeStep s =
      (none, Coordinator.persistState
        { c with workflowState := some (applyOp ws (CoordOp.complete s)) }) := by
  simp [Coordinator.completeStep, h, applyOp]

theorem failStep_eq_applyOp (c : Coordinator) (ws : WorkflowState) (s : String)
    (h : c.workflowState = some ws) :
    c.failStep s =
      (none, Coordinator.persistState
        { c with workflowState := some (applyOp ws (CoordOp.fail s)) }) := by
  simp [Coordinator.failStep, h, applyOp]

theorem stepSetsDisjoint_start (ws : WorkflowState) (s : String)
    (h : stepSetsDisjoint ws) (hc : s ∉ ws.completedSteps) (hf : s ∉ ws.failedSteps) :
    stepSetsDisjoint (applyOp ws (CoordOp.start s)) := by
  obtain ⟨h1, h2, h3⟩ := h
  refine ⟨?_, ?_, ?_⟩
  · intro x hx
    simp only [applyOp, Finset.mem_insert] at hx
    rcases hx with rfl | hx
    · exact hc
    · exact h1 x hx
  · intro x hx
    simp only [applyOp, Finset.mem_insert] at hx
    rcases hx with rfl | hx
    · exact hf
    · exact h2 x hx
  · intro x hx
    exact h3 x hx

theorem stepSetsDisjoint_complete (ws : WorkflowState) (s : String)
    (h : stepSetsDisjoint ws) (hf : s ∉ ws.failedSteps) :
    stepSetsDisjoint (applyOp ws (CoordOp.complete s)) := by
  obtain ⟨h1, h2, h3⟩ := h
  refine ⟨?_, ?_, ?_⟩
  · intro x hx
    simp only [applyOp, Finset.mem_erase] at hx
    simp only [applyOp, Finset.mem_insert]
    rintro (rfl | hxc)
    · exact hx.1 rfl
    · exact h1 x hx.2 hxc
  · intro x hx
    simp only [applyOp, Finset.mem_erase] at hx
    exact h2 x hx.2
  · intro x hx
    simp only [applyOp, Finset.mem_insert] at hx
    rcases hx with rfl | hxc
    · exact hf
    · exact h3 x hxc

theorem stepSetsDisjoint_fail (ws : WorkflowState) (s : String)
    (h : stepSetsDisjoint ws) (hc : s ∉ ws.completedSteps) :
    stepSetsDisjoint (applyOp ws (CoordOp.fail s)) := by
  obtain ⟨h1, h2, h3⟩ := h
  refine ⟨?_, ?_, ?_⟩
  · intro x hx
    simp only [applyOp, Finset.mem_erase] at hx
    exact h1 x hx.2
  · intro x hx
    simp only [applyOp, Finset.mem_erase] at hx
    simp only [applyOp, Finset.mem_insert]
    rintro (rfl | hxf)
    · exact hx.1 rfl
    · exact h2 x hx.2 hxf
  · intro x hx
    simp only [applyOp] at hx
    simp only [applyOp, Finset.mem_insert]
    rintro (rfl | hxf)
    · exact hc hx
    · exact h3 x hx hxf

theorem stepSetsDisjoint_applyOps (ops : List CoordOp) :
    ∀ ws : WorkflowState, stepSetsDisjoint ws →
    noOpAfterTerminal ops = true →
    (∀ op ∈ ops, op.stepId ∉ ws.completedSteps ∧ op.stepId ∉ ws.failedSteps) →
    stepSetsDisjoint (applyOps ws ops) := by
  induction ops with
  | nil =>
    intro ws hdisj _ _
    simpa [applyOps] using hdisj
  | cons op rest ih =>
    intro ws hdisj hwf hfresh
    have hfreshHead := hfresh op (List.mem_cons_self op rest)
    have hwf2 : noOpAfterTerminal rest = true := by
      simp only [noOpAfterTerminal, Bool.and_eq_true] at hwf
      exact hwf.2
    have hall : op.isTerminal = true → ∀ op2 ∈ rest, op2.stepId ≠ op.stepId := by
      intro hterm op2 hop2
      simp only [noOpAfterTerminal, Bool.and_eq_true, hterm, if_true,
        List.all_eq_true] at hwf
      have hb := hwf.1 op2 hop2
      simpa [bne_iff_ne] using hb
    rw [show applyOps ws (op :: rest) = applyOps (applyOp ws op) rest from rfl]
    cases op with
    | start s =>
      apply ih
      · exact stepSetsDisjoint_start ws s hdisj hfreshHead.1 hfreshHead.2
      · exact hwf2
      · intro op2 hop2
        have h2 := hfresh op2 (List.mem_cons_of_mem _ hop2)
        simpa [applyOp] using h2
    | complete s =>
      apply ih
      · exact stepSetsDisjoint_complete ws s hdisj hfreshHead.2
      · exact hwf2
      · intro op2 hop2
        have hne : op2.stepId ≠ s := hall rfl op2 hop2
        have h2 := hfresh op2 (List.mem_cons_of_mem _ hop2)
        constructor
        · simp only [applyOp, Finset.mem_insert]
          rintro (h | h)
          · exact hne h
          · exact h2.1 h
        · simpa [applyOp] using h2.2
    | fail s =>
      apply ih
      · exact stepSetsDisjoint_fail ws s hdisj hfreshHead.1
      · exact hwf2
      · intro op2 hop2
        have hne : op2.stepId ≠ s := hall rfl op2 hop2
        have h2 := hfresh op2 (List.mem_cons_of_mem _ hop2)
        constructor
        · simpa [applyOp] using h2.1
        · simp only [applyOp, Finset.mem_insert]
          rintro (h | h)
          · exact hne h
          · exact h2.2 h

/-- C1 counterexample: the operation sequence startStep s, completeStep s,
startStep s leaves s in both activeSteps and completedSteps, because startStep
only inserts into activeSteps and never removes the identifier from the
terminal sets.  The three sets are therefore not pairwise disjoint for every
operation sequence. -/
theorem coordinator_disjoint_counterexample :
    ¬ stepSetsDisjoint
        (applyOps (freshState "r")
          [CoordOp.start "s", CoordOp.complete "s", CoordOp.start "s"]) := by
  intro h
  have ha : "s" ∈ (applyOps (freshState "r")
      [CoordOp.start "s", CoordOp.complete "s", CoordOp.start "s"]).activeSteps := by
    simp [applyOps, applyOp, freshState]
  have hc : "s" ∈ (applyOps (freshState "r")
      [CoordOp.start "s", CoordOp.complete "s", CoordOp.start "s"]).completedSteps := by
    simp [applyOps, applyOp, freshState]
  exact h.1 "s" ha hc

/-- C1 (amended): after completeStep s the identifier s is in completedSteps
and absent from activeSteps, from any state; and starting from the fresh
initialized state the three step-identifier sets stay pairwise disjoint for
every operation sequence in which no step identifier receives a further
operation after completeStep or failStep moved it into a terminal set. -/
theorem coordinator_step_sets_disjoint :
    (∀ (ws : WorkflowState) (s : String),
        s ∈ (applyOp ws (CoordOp.complete s)).completedSteps ∧
        s ∉ (applyOp ws (CoordOp.complete s)).activeSteps) ∧
    (∀ (runId : String) (ops : List CoordOp),
        noOpAfterTerminal ops = true →
        stepSetsDisjoint (applyOps (freshState runId) ops)) := by
  constructor
  · intro ws s
    constructor
    · simp [applyOp]
    · simp [applyOp]
  · intro runId ops hwf
    apply stepSetsDisjoint_applyOps ops (freshState runId)
    · refine ⟨?_, ?_, ?_⟩ <;> intro x hx <;>
        simp [freshState] at hx
    · exact hwf
    · intro op _
      simp [freshState]

/-- C1 witness: the well-formed sequence startStep a then completeStep a keeps
the three sets pairwise disjoint. -/
theorem coordinator_step_sets_disjoint_witness :
    stepSetsDisjoint
      (applyOps (freshState "r") [CoordOp.start "a", CoordOp.complete "a"]) :=
  coordinator_step_sets_disjoint.2 "r"
    [CoordOp.start "a", CoordOp.complete "a"] (by decide)

/-- C7: startStep, completeStep and failStep called before initialize fail with
the not-initialized error, returning the coordinator (and hence its persisted
state) unchanged; on an initialized coordinator they succeed for every step
identifier, existing step entity or not (no NotFound is possible: there is no
existence check). -/
theorem coordinator_init_precondition :
    (∀ (c : Coordinator) (s : String), c.workflowState = none →
        c.startStep s = (some CoordError.notInitialized, c) ∧
        c.completeStep s = (some CoordError.notInitialized, c) ∧
        c.failStep s = (some CoordError.notInitialized, c)) ∧
    (∀ (c : Coordinator) (ws : WorkflowState) (s : String),
        c.workflowState = some ws →
        (c.startStep s).1 = none ∧
        (c.completeStep s).1 = none ∧
        (c.failStep s).1 = none) := by
  constructor
  · intro c s h
    refine ⟨?_, ?_, ?_⟩ <;>
      simp [Coordinator.startStep, Coordinator.completeStep, Coordinator.failStep, h]
  · intro c ws s h
    refine ⟨?_, ?_, ?_⟩ <;>
      simp [Coordinator.startStep, Coordinator.completeStep, Coordinator.failStep, h]

/-- C7 witness: on an uninitialized coordinator startStep returns the
not-initialized error with the coordinator unchanged, and on an initialized
one it succeeds for a step identifier that exists nowhere as a step entity. -/
theorem coordinator_init_precondition_witness :
    (Coordinator.mk none none).startStep "s" =
      (some CoordError.notInitialized, Coordinator.mk none none) ∧
    ((Coordinator.mk none (some (freshState "r"))).startStep "s").1 = none :=
  ⟨(coordinator_init_precondition.1 (Coordinator.mk none none) "s" rfl).1,
   (coordinator_init_precondition.2 (Coordinator.mk none (some (freshState "r")))
      (freshState "r") "s" rfl).1⟩

/-- C10: on a coordinator on which initialize has not run, the read operations
do not fail: canAcceptSteps returns false and getMetadata returns undefined
for every key. -/
theorem coordinator_uninitialized_reads (c : Coordinator) (key : String)
    (h : c.workflowState = none) :
    c.canAcceptSteps = false ∧ c.getMetadata key = none := by
  constructor
  · simp [Coordinator.canAcceptSteps, h]
  · simp [Coordinator.getMetadata, h]

/-- C10 witness: the fresh, never-initialized coordinator answers false and
undefined. -/
theorem coordinator_uninitialized_reads_witness :
    (Coordinator.mk none none).canAcceptSteps = false ∧
    (Coordinator.mk none none).getMetadata "k" = none :=
  coordinator_uninitialized_reads (Coordinator.mk none none) "k" rfl

/-! ## Tiered payload store (src/utils/r2.ts)

The R2 bucket is embedded as an association list from keys to stored text,
with put overwriting and get returning the latest object for a key.  The
ambient platform serializer JSON.stringify and deserializer JSON.parse are
passed in as a function pair (stringify, parse); the platform guarantees that
parse inverts stringify, which appears as a hypothesis where it is needed. -/

/-- DataReference from src/types.ts: a tagged pair, either inline JSON text or
an opaque R2 storage key. -/
inductive DataReference where
  | inline (data : String)
  | r2 (data : String)
  deriving DecidableEq, Repr

/-- The R2 bucket contents: stored objects as key-to-text bindings. -/
structure Bucket where
  objects : List (String × String)
  deriving DecidableEq, Repr

/-- R2 get: the object stored under the key, if any. -/
def Bucket.get (b : Bucket) (key : String) : Option String :=
  (b.objects.find? (fun p => p.1 == key)).map (fun p => p.2)

/-- R2 put: stores text under the key, overwriting any previous object. -/
def Bucket.put (b : Bucket) (key text : String) : Bucket :=
  ⟨(key, text) :: b.objects.filter (fun p => p.1 ≠ key)⟩

theorem Bucket.get_put (b : Bucket) (key text : String) :
    (b.put key text).get key = some text := by
  simp [Bucket.put, Bucket.get, List.find?_cons_of_pos]

/-- generateR2Key from r2.ts: the prefix/id/field path of the object. -/
def generateR2Key (keyPref id field : String) : String :=
  keyPref ++ "/" ++ id ++ "/" ++ field

/-- Errors retrieveData can raise: the explicit throw for a missing R2 object,
and the platform JSON.parse failure on unparseable stored text. -/
inductive RetrieveError where
  | r2ObjectNotFound (key : String)
  | jsonParseError
  deriving DecidableEq, Repr

/-- storeData from r2.ts: serialize the value; if the serialized length is at
most the threshold return an inline reference carrying the text, otherwise put
the text into the bucket under the generated key and return an r2 reference.
Returns the updated bucket together with the reference. -/
def storeData (α : Type) (stringify : α → String) (bucket : Bucket) (data : α)
    (keyPref id field : String) (threshold : Nat) : Bucket × DataReference :=
  let jsonData := stringify data
  if jsonData.length ≤ threshold then
    (bucket, DataReference.inline jsonData)
  else
    let key := generateR2Key keyPref id field
    (bucket.put key jsonData, DataReference.r2 key)

/-- retrieveData from r2.ts: null references resolve to null; inline references
parse their own text without touching the bucket; r2 references are fetched
from the bucket, a missing object being the thrown not-found error. -/
def retrieveData (α : Type) (parse : String → Option α) (bucket : Bucket)
    (reference : Option DataReference) : Except RetrieveError (Option α) :=
  match reference with
  | none => Except.ok none
  | some (DataReference.inline d) =>
      match parse d with
      | some v => Except.ok (some v)
      | none => Except.error RetrieveError.jsonParseError
  | some (DataReference.r2 key) =>
      match bucket.get key with
      | none => Except.error (RetrieveError.r2ObjectNotFound key)
      | some text =>
          match parse text with
          | some v => Except.ok (some v)
          | none => Except.error RetrieveError.jsonParseError

/-- C2: with a serializer/deserializer pair where parse inverts stringify (the
JSON.stringify / JSON.parse contract), retrieveData applied to the bucket and
reference produced by storeData returns the stored value, and the reference is
inline exactly when the serialized length is at most the threshold (length
equal to the threshold included), r2 with the generated key otherwise. -/
theorem storeData_retrieveData_roundtrip (α : Type)
    (stringify : α → String) (parse : String → Option α)
    (hinv : ∀ x, parse (stringify x) = some x)
    (bucket : Bucket) (data : α) (keyPref id field : String) (threshold : Nat) :
    retrieveData α parse
        (storeData α stringify bucket data keyPref id field threshold).1
        (some (storeData α stringify bucket data keyPref id field threshold).2) =
      Except.ok (some data) ∧
    ((storeData α stringify bucket data keyPref id field threshold).2 =
        DataReference.inline (stringify data) ↔
      (stringify data).length ≤ threshold) ∧
    ((storeData α stringify bucket data keyPref id field threshold).2 =
        DataReference.r2 (generateR2Key keyPref id field) ↔
      ¬ (stringify data).length ≤ threshold) := by
  by_cases h : (stringify data).length ≤ threshold
  · refine ⟨?_, ?_, ?_⟩
    · simp [storeData, retrieveData, h, hinv]
    · simp [storeData, h]
    · simp [storeData, h]
  · refine ⟨?_, ?_, ?_⟩
    · simp [storeData, retrieveData, h, hinv, Bucket.get_put]
    · simp [storeData, h]
    · simp [storeData, h]

/-- C2 witness: a concrete serializer pair on Unit with threshold 1 stores the
one-character text inline and retrieves the original value. -/
theorem storeData_retrieveData_roundtrip_witness :
    retrieveData Unit (fun s => if s = "u" then some () else none)
        (storeData Unit (fun _ => "u") (Bucket.mk []) () "inputs" "i" "input" 1).1
        (some (storeData Unit (fun _ => "u")
          (Bucket.mk []) () "inputs" "i" "input" 1).2) =
      Except.ok (some ()) :=
  (storeData_retrieveData_roundtrip Unit (fun _ => "u")
    (fun s => if s = "u" then some () else none) (fun x => by simp)
    (Bucket.mk []) () "inputs" "i" "input" 1).1

/-- C8: retrieveData on an r2 reference whose key is absent from the bucket
fails with the not-found error rather than returning an ok result; on an
inline reference and on a null reference its result does not depend on the
bucket at all (the blob store is never consulted). -/
theorem retrieveData_missing_blob_fatal (α : Type) :
    (∀ (parse : String → Option α) (bucket : Bucket) (key : String),
        bucket.get key = none →
        retrieveData α parse bucket (some (DataReference.r2 key)) =
          Except.error (RetrieveError.r2ObjectNotFound key)) ∧
    (∀ (parse : String → Option α) (b b2 : Bucket) (d : String),
        retrieveData α parse b (some (DataReference.inline d)) =
          retrieveData α parse b2 (some (DataReference.inline d))) ∧
    (∀ (parse : String → Option α) (b b2 : Bucket),
        retrieveData α parse b none = retrieveData α parse b2 none) := by
  refine ⟨?_, ?_, ?_⟩
  · intro parse bucket key h
    simp [retrieveData, h]
  · intro parse b b2 d
    rfl
  · intro parse b b2
    rfl

/-- C8 witness: on the empty bucket, an r2 reference to a key that is not
stored fails with the not-found error. -/
theorem retrieveData_missing_blob_fatal_witness :
    retrieveData Unit (fun _ => some ()) (Bucket.mk [])
        (some (DataReference.r2 "inputs/i/input")) =
      Except.error (RetrieveError.r2ObjectNotFound "inputs/i/input") :=
  (retrieveData_missing_blob_fatal Unit).1 (fun _ => some ())
    (Bucket.mk []) "inputs/i/input" rfl

/-! ## Run repository (src/storage/runs.ts) and step repository (src/storage/steps.ts)

A database row is embedded as a record; create and update act on single rows
(the SQL statements touch exactly the row for the given identifier).  Reads go
through rowToRun / rowToStep, which convert the nullable millisecond columns
with row.started_at ? new Date(row.started_at) : undefined; JS truthiness
makes both null and 0 read as unset, which tsDefined captures. -/

/-- Truthiness of a nullable millisecond timestamp column as seen by update
through rowToRun: null and 0 are both falsy. -/
def tsDefined : Option Nat → Bool
  | none => false
  | some t => t != 0

/-- The type column value of a DataReference, inline or r2. -/
def DataReference.typeStr : DataReference → String
  | DataReference.inline _ => "inline"
  | DataReference.r2 _ => "r2"

/-- The data column value of a DataReference: JSON text or storage key. -/
def DataReference.dataStr : DataReference → String
  | DataReference.inline d => d
  | DataReference.r2 d => d

/-- A row of the workflow_runs table (src/types.ts WorkflowRunRow). -/
structure WorkflowRunRow where
  run_id : String
  deployment_id : String
  workflow_name : String
  status : WorkflowRunStatus
  input_type : String
  input_data : String
  output_type : Option String
  output_data : Option String
  execution_context : Option String
  error : Option String
  error_code : Option String
  created_at : Nat
  updated_at : Nat
  started_at : Option Nat
  completed_at : Option Nat
  deriving DecidableEq, Repr

/-- UpdateWorkflowRunRequest: every field optional; executionContext stands
for the already-serialized JSON text of the context object. -/
structure UpdateWorkflowRunRequest (α : Type) where
  status : Option WorkflowRunStatus
  output : Option α
  executionContext : Option String
  error : Option String
  errorCode : Option String

/-- runs.create: store the input through the tiered store under
inputs/runId/input, then insert a row with status pending, created_at and
updated_at set to now and both lifecycle timestamps null. -/
def runsCreate (α : Type) (stringify : α → String) (bucket : Bucket)
    (threshold : Nat) (runId deploymentId workflowName : String) (input : α)
    (executionContext : Option String) (now : Nat) : Bucket × WorkflowRunRow :=
  let stored := storeData α stringify bucket input "inputs" runId "input" threshold
  (stored.1,
   { run_id := runId
     deployment_id := deploymentId
     workflow_name := workflowName
     status := WorkflowRunStatus.pending
     input_type := stored.2.typeStr
     input_data := stored.2.dataStr
     output_type := none
     output_data := none
     execution_context := executionContext
     error := none
     error_code := none
     created_at := now
     updated_at := now
     started_at := none
     completed_at := none })

/-- The status branch of runs.update: set the status column; stamp started_at
when the new status is running and the current started_at is falsy; stamp
completed_at when the new status is in the list completed, failed, cancelled
and the current completed_at is falsy. -/
def applyRunStatusClause (row : WorkflowRunRow)
    (status : Option WorkflowRunStatus) (now : Nat) : WorkflowRunRow :=
  match status with
  | none => row
  | some st =>
      let row1 := { row with status := st }
      let row2 :=
        if st = WorkflowRunStatus.running ∧ tsDefined row.started_at = false then
          { row1 with started_at := some now }
        else row1
      if (st = WorkflowRunStatus.completed ∨ st = WorkflowRunStatus.failed ∨
            st = WorkflowRunStatus.cancelled) ∧ tsDefined row.completed_at = false then
        { row2 with completed_at := some now }
      else row2

/-- The output branch of runs.update: when an output is supplied, store it
through the tiered store under outputs/runId/output and set the two output
columns. -/
def applyRunOutputClause (α : Type) (stringify : α → String) (bucket : Bucket)
    (threshold : Nat) (row : WorkflowRunRow) (output : Option α) :
    Bucket × WorkflowRunRow :=
  match output with
  | none => (bucket, row)
  | some o =>
      let stored := storeData α stringify bucket o "outputs" row.run_id "output" threshold
      (stored.1,
       { row with
          output_type := some stored.2.typeStr
          output_data := some stored.2.dataStr })

/-- runs.update: always sets updated_at; then applies the status, output,
executionContext, error and errorCode branches, each only when the request
supplies the field. -/
def runsUpdate (α : Type) (stringify : α → String) (bucket : Bucket)
    (threshold : Nat) (row : WorkflowRunRow)
    (req : UpdateWorkflowRunRequest α) (now : Nat) : Bucket × WorkflowRunRow :=
  let row0 := { row with updated_at := now }
  let row1 := applyRunStatusClause row0 req.status now
  let stored := applyRunOutputClause α stringify bucket threshold row1 req.output
  let row2 :=
    match req.executionContext with
    | none => stored.2
    | some ctx => { stored.2 with execution_context := some ctx }
  let row3 :=
    match req.error with
    | none => row2
    | some e => { row2 with error := some e }
  let row4 :=
    match req.errorCode with
    | none => row3
    | some e2 => { row3 with error_code := some e2 }
  (stored.1, row4)

theorem applyRunOutputClause_timestamps (α : Type) (stringify : α → String)
    (bucket : Bucket) (threshold : Nat) (row : WorkflowRunRow) (output : Option α) :
    (applyRunOutputClause α stringify bucket threshold row output).2.started_at =
        row.started_at ∧
    (applyRunOutputClause α stringify bucket threshold row output).2.completed_at =
        row.completed_at := by
  cases output <;> simp [applyRunOutputClause]

theorem runsUpdate_timestamps (α : Type) (stringify : α → String)
    (bucket : Bucket) (threshold : Nat) (row : WorkflowRunRow)
    (req : UpdateWorkflowRunRequest α) (now : Nat) :
    (runsUpdate α stringify bucket threshold row req now).2.started_at =
        (applyRunStatusClause { row with updated_at := now } req.status now).started_at ∧
    (runsUpdate α stringify bucket threshold row req now).2.completed_at =
        (applyRunStatusClause { row with updated_at := now } req.status now).completed_at := by
  have h := applyRunOutputClause_timestamps α stringify bucket threshold
    (applyRunStatusClause { row with updated_at := now } req.status now) req.output
  cases hc : req.executionContext <;> cases he : req.error <;> cases he2 : req.errorCode <;>
    simp [runsUpdate, hc, he, he2, h.1, h.2]

theorem applyRunStatusClause_running (row : WorkflowRunRow) (now : Nat) :
    (tsDefined row.started_at = false →
      (applyRunStatusClause row (some WorkflowRunStatus.running) now).started_at =
        some now) ∧
    (tsDefined row.started_at = true →
      (applyRunStatusClause row (some WorkflowRunStatus.running) now).started_at =
        row.started_at) := by
  constructor <;> intro h <;> simp [applyRunStatusClause, h]

theorem applyRunStatusClause_completed (row : WorkflowRunRow) (now : Nat) :
    (tsDefined row.completed_at = false →
      (applyRunStatusClause row (some WorkflowRunStatus.completed) now).completed_at =
        some now) ∧
    (tsDefined row.completed_at = true →
      (applyRunStatusClause row (some WorkflowRunStatus.completed) now).completed_at =
        row.completed_at) := by
  constructor <;> intro h <;> simp [applyRunStatusClause, h]

/-- C3: a created run row has status pending and both lifecycle timestamps
null; updating a run whose started_at is unset to running stamps started_at
with the update time, and a second update to running leaves it at the first
stamp; updating a run whose completed_at is unset to completed stamps
completed_at once, and re-setting the same terminal status keeps the first
stamp.  The nonzero hypotheses on the update times reflect that Date.now is
never the falsy value 0. -/
theorem run_lifecycle_timestamps_set_once (α : Type) (stringify : α → String) :
    (∀ (bucket : Bucket) (threshold : Nat) (runId depId wfName : String)
        (input : α) (ctx : Option String) (now : Nat),
        (runsCreate α stringify bucket threshold runId depId wfName input ctx now).2.status =
            WorkflowRunStatus.pending ∧
        (runsCreate α stringify bucket threshold runId depId wfName input ctx now).2.started_at =
            none ∧
        (runsCreate α stringify bucket threshold runId depId wfName input ctx now).2.completed_at =
            none) ∧
    (∀ (bucket : Bucket) (threshold : Nat) (row : WorkflowRunRow)
        (req1 req2 : UpdateWorkflowRunRequest α) (now1 now2 : Nat),
        row.started_at = none →
        req1.status = some WorkflowRunStatus.running →
        req2.status = some WorkflowRunStatus.running →
        now1 ≠ 0 →
        (runsUpdate α stringify bucket threshold row req1 now1).2.started_at = some now1 ∧
        (runsUpdate α stringify
            (runsUpdate α stringify bucket threshold row req1 now1).1 threshold
            (runsUpdate α stringify bucket threshold row req1 now1).2 req2 now2).2.started_at =
          some now1) ∧
    (∀ (bucket : Bucket) (threshold : Nat) (row : WorkflowRunRow)
        (req1 req2 : UpdateWorkflowRunRequest α) (now1 now2 : Nat),
        row.completed_at = none →
        req1.status = some WorkflowRunStatus.completed →
        req2.status = some WorkflowRunStatus.completed →
        now1 ≠ 0 →
        (runsUpdate α stringify bucket threshold row req1 now1).2.completed_at = some now1 ∧
        (runsUpdate α stringify
            (runsUpdate α stringify bucket threshold row req1 now1).1 threshold
            (runsUpdate α stringify bucket threshold row req1 now1).2 req2 now2).2.completed_at =
          some now1) := by
  refine ⟨?_, ?_, ?_⟩
  · intro bucket threshold runId depId wfName input ctx now
    refine ⟨rfl, rfl, rfl⟩
  · intro bucket threshold row req1 req2 now1 now2 hnone h1 h2 hnz
    have hu1 := runsUpdate_timestamps α stringify bucket threshold row req1 now1
    have hfalse : tsDefined ({ row with updated_at := now1 } : WorkflowRunRow).started_at = false := by
      simp [hnone, tsDefined]
    have hfirst :
        (runsUpdate α stringify bucket threshold row req1 now1).2.started_at = some now1 := by
      rw [hu1.1, h1]
      exact (applyRunStatusClause_running _ now1).1 hfalse
    refine ⟨hfirst, ?_⟩
    have hu2 := runsUpdate_timestamps α stringify
      (runsUpdate α stringify bucket threshold row req1 now1).1 threshold
      (runsUpdate α stringify bucket threshold row req1 now1).2 req2 now2
    rw [hu2.1, h2]
    have htrue : tsDefined ({ (runsUpdate α stringify bucket threshold row req1 now1).2 with
        updated_at := now2 } : WorkflowRunRow).started_at = true := by
      simp [hfirst, tsDefined, hnz]
    rw [(applyRunStatusClause_running _ now2).2 htrue]
    simpa using hfirst
  · intro bucket threshold row req1 req2 now1 now2 hnone h1 h2 hnz
    have hu1 := runsUpdate_timestamps α stringify bucket threshold row req1 now1
    have hfalse : tsDefined ({ row with updated_at := now1 } : WorkflowRunRow).completed_at = false := by
      simp [hnone, tsDefined]
    have hfirst :
        (runsUpdate α stringify bucket threshold row req1 now1).2.completed_at = some now1 := by
      rw [hu1.2, h1]
      exact (applyRunStatusClause_completed _ now1).1 hfalse
    refine ⟨hfirst, ?_⟩
    have hu2 := runsUpdate_timestamps α stringify
      (runsUpdate α stringify bucket threshold row req1 now1).1 threshold
      (runsUpdate α stringify bucket threshold row req1 now1).2 req2 now2
    rw [hu2.2, h2]
    have htrue : tsDefined ({ (runsUpdate α stringify bucket threshold row req1 now1).2 with
        updated_at := now2 } : WorkflowRunRow).completed_at = true := by
      simp [hfirst, tsDefined, hnz]
    rw [(applyRunStatusClause_completed _ now2).2 htrue]
    simpa using hfirst

/-- Concrete update request setting only a status, for witnesses. -/
def statusOnlyRunReq (st : WorkflowRunStatus) : UpdateWorkflowRunRequest Unit :=
  { status := some st, output := none, executionContext := none,
    error := none, errorCode := none }

/-- C3 witness: create at time 1, update to running at 2 and again at 3: the
row is created pending with null timestamps and started_at stays at 2. -/
theorem run_lifecycle_timestamps_set_once_witness :
    (runsCreate Unit (fun _ => "[]") (Bucket.mk []) 10 "wrun_a" "d" "wf" () none 1).2.status =
        WorkflowRunStatus.pending ∧
    (runsUpdate Unit (fun _ => "[]")
        (runsUpdate Unit (fun _ => "[]") (Bucket.mk []) 10
          (runsCreate Unit (fun _ => "[]") (Bucket.mk []) 10 "wrun_a" "d" "wf" () none 1).2
          (statusOnlyRunReq WorkflowRunStatus.running) 2).1 10
        (runsUpdate Unit (fun _ => "[]") (Bucket.mk []) 10
          (runsCreate Unit (fun _ => "[]") (Bucket.mk []) 10 "wrun_a" "d" "wf" () none 1).2
          (statusOnlyRunReq WorkflowRunStatus.running) 2).2
        (statusOnlyRunReq WorkflowRunStatus.running) 3).2.started_at = some 2 :=
  ⟨(run_lifecycle_timestamps_set_once Unit (fun _ => "[]")).1
      (Bucket.mk []) 10 "wrun_a" "d" "wf" () none 1 |>.1,
   ((run_lifecycle_timestamps_set_once Unit (fun _ => "[]")).2.1
      (Bucket.mk []) 10
      (runsCreate Unit (fun _ => "[]") (Bucket.mk []) 10 "wrun_a" "d" "wf" () none 1).2
      (statusOnlyRunReq WorkflowRunStatus.running)
      (statusOnlyRunReq WorkflowRunStatus.running) 2 3 rfl rfl rfl
      (by decide)).2⟩

/-- A row of the workflow_steps table (src/types.ts WorkflowStepRow). -/
structure WorkflowStepRow where
  step_id : String
  run_id : String
  step_name : String
  status : StepStatus
  input_type : String
  input_data : String
  output_type : Option String
  output_data : Option String
  attempt : Nat
  error : Option String
  error_code : Option String
  created_at : Nat
  updated_at : Nat
  started_at : Option Nat
  completed_at : Option Nat
  deriving DecidableEq, Repr

/-- UpdateStepRequest: every field optional. -/
structure UpdateStepRequest (α : Type) where
  status : Option StepStatus
  output : Option α
  attempt : Option Nat
  error : Option String
  errorCode : Option String

/-- steps.create: store the input through the tiered store under
step-inputs/stepId/input, then insert a row with status pending, attempt 1 and
both lifecycle timestamps null. -/
def stepsCreate (α : Type) (stringify : α → String) (bucket : Bucket)
    (threshold : Nat) (runId stepId stepName : String) (input : α) (now : Nat) :
    Bucket × WorkflowStepRow :=
  let stored := storeData α stringify bucket input "step-inputs" stepId "input" threshold
  (stored.1,
   { step_id := stepId
     run_id := runId
     step_name := stepName
     status := StepStatus.pending
     input_type := stored.2.typeStr
     input_data := stored.2.dataStr
     output_type := none
     output_data := none
     attempt := 1
     error := none
     error_code := none
     created_at := now
     updated_at := now
     started_at := none
     completed_at := none })

/-- The status branch of steps.update: set the status column; stamp started_at
when the new status is running and the current started_at is falsy; stamp
completed_at when the new status is in the list completed, failed (the source
checks membership of exactly this two-element list) and the current
completed_at is falsy. -/
def applyStepStatusClause (row : WorkflowStepRow)
    (status : Option StepStatus) (now : Nat) : WorkflowStepRow :=
  match status with
  | none => row
  | some st =>
      let row1 := { row with status := st }
      let row2 :=
        if st = StepStatus.running ∧ tsDefined row.started_at = false then
          { row1 with started_at := some now }
        else row1
      if (st = StepStatus.completed ∨ st = StepStatus.failed) ∧
          tsDefined row.completed_at = false then
        { row2 with completed_at := some now }
      else row2

/-- The output branch of steps.update: when an output is supplied, store it
through the tiered store under step-outputs/stepId/output and set the two
output columns. -/
def applyStepOutputClause (α : Type) (stringify : α → String) (bucket : Bucket)
    (threshold : Nat) (row : WorkflowStepRow) (output : Option α) :
    Bucket × WorkflowStepRow :=
  match output with
  | none => (bucket, row)
  | some o =>
      let stored := storeData α stringify bucket o "step-outputs" row.step_id "output" threshold
      (stored.1,
       { row with
          output_type := some stored.2.typeStr
          output_data := some stored.2.dataStr })

/-- steps.update: always sets updated_at; then applies the status, output,
attempt, error and errorCode branches, each only when the request supplies
the field. -/
def stepsUpdate (α : Type) (stringify : α → String) (bucket : Bucket)
    (threshold : Nat) (row : WorkflowStepRow)
    (req : UpdateStepRequest α) (now : Nat) : Bucket × WorkflowStepRow :=
  let row0 := { row with updated_at := now }
  let row1 := applyStepStatusClause row0 req.status now
  let stored := applyStepOutputClause α stringify bucket threshold row1 req.output
  let row2 :=
    match req.attempt with
    | none => stored.2
    | some a => { stored.2 with attempt := a }
  let row3 :=
    match req.error with
    | none => row2
    | some e => { row2 with error := some e }
  let row4 :=
    match req.errorCode with
    | none => row3
    | some e2 => { row3 with error_code := some e2 }
  (stored.1, row4)

theorem applyStepOutputClause_timestamps (α : Type) (stringify : α → String)
    (bucket : Bucket) (threshold : Nat) (row : WorkflowStepRow) (output : Option α) :
    (applyStepOutputClause α stringify bucket threshold row output).2.started_at =
        row.started_at ∧
    (applyStepOutputClause α stringify bucket threshold row output).2.completed_at =
        row.completed_at := by
  cases output <;> simp [applyStepOutputClause]

theorem stepsUpdate_timestamps (α : Type) (stringify : α → String)
    (bucket : Bucket) (threshold : Nat) (row : WorkflowStepRow)
    (req : UpdateStepRequest α) (now : Nat) :
    (stepsUpdate α stringify bucket threshold row req now).2.started_at =
        (applyStepStatusClause { row with updated_at := now } req.status now).started_at ∧
    (stepsUpdate α stringify bucket threshold row req now).2.completed_at =
        (applyStepStatusClause { row with updated_at := now } req.status now).completed_at := by
  have h := applyStepOutputClause_timestamps α stringify bucket threshold
    (applyStepStatusClause { row with updated_at := now } req.status now) req.output
  cases ha : req.attempt <;> cases he : req.error <;> cases he2 : req.errorCode <;>
    simp [stepsUpdate, ha, he, he2, h.1, h.2]

/-- A concrete pending step row with both lifecycle timestamps unset. -/
def sampleStepRow : WorkflowStepRow :=
  { step_id := "wstp_a"
    run_id := "wrun_a"
    step_name := "work"
    status := StepStatus.pending
    input_type := "inline"
    input_data := "[]"
    output_type := none
    output_data := none
    attempt := 1
    error := none
    error_code := none
    created_at := 1
    updated_at := 1
    started_at := none
    completed_at := none }

/-- Concrete update request setting only a status, for witnesses. -/
def statusOnlyStepReq (st : StepStatus) : UpdateStepRequest Unit :=
  { status := some st, output := none, attempt := none,
    error := none, errorCode := none }

/-- C4 counterexample: updating a pending step whose completed_at is unset to
the terminal status cancelled does not stamp completed_at: the source checks
membership of the two-element list completed, failed only, so cancelled falls
through and completed_at stays null where the claim requires it stamped. -/
theorem step_cancelled_not_stamped :
    (stepsUpdate Unit (fun _ => "[]") (Bucket.mk []) 10 sampleStepRow
        (statusOnlyStepReq StepStatus.cancelled) 5).2.status = StepStatus.cancelled ∧
    (stepsUpdate Unit (fun _ => "[]") (Bucket.mk []) 10 sampleStepRow
        (statusOnlyStepReq StepStatus.cancelled) 5).2.completed_at = none := by
  exact ⟨rfl, rfl⟩

/-- C4 (amended): for steps the terminal statuses that stamp completed_at are
exactly completed and failed: a first update to either stamps completed_at
(when it is unset) with the set-once behaviour of the run timestamps, and
re-setting the same terminal status does not re-stamp; an update to cancelled
sets the status but leaves completed_at untouched. -/
theorem step_terminal_timestamps (α : Type) (stringify : α → String) :
    (∀ (bucket : Bucket) (threshold : Nat) (row : WorkflowStepRow)
        (req : UpdateStepRequest α) (now : Nat) (st : StepStatus),
        req.status = some st →
        (st = StepStatus.completed ∨ st = StepStatus.failed) →
        tsDefined row.completed_at = false →
        (stepsUpdate α stringify bucket threshold row req now).2.completed_at = some now) ∧
    (∀ (bucket : Bucket) (threshold : Nat) (row : WorkflowStepRow)
        (req : UpdateStepRequest α) (now : Nat) (st : StepStatus),
        req.status = some st →
        tsDefined row.completed_at = true →
        (stepsUpdate α stringify bucket threshold row req now).2.completed_at =
          row.completed_at) ∧
    (∀ (bucket : Bucket) (threshold : Nat) (row : WorkflowStepRow)
        (req : UpdateStepRequest α) (now : Nat),
        req.status = some StepStatus.cancelled →
        (stepsUpdate α stringify bucket threshold row req now).2.completed_at =
          row.completed_at) := by
  refine ⟨?_, ?_, ?_⟩
  · intro bucket threshold row req now st hst hterm hfalse
    have hu := stepsUpdate_timestamps α stringify bucket threshold row req now
    rw [hu.2, hst]
    rcases hterm with rfl | rfl <;>
      simp [applyStepStatusClause, hfalse]
  · intro bucket threshold row req now st hst htrue
    have hu := stepsUpdate_timestamps α stringify bucket threshold row req now
    rw [hu.2, hst]
    cases st <;> simp [applyStepStatusClause, htrue]
    split
    · rfl
    · rfl
  · intro bucket threshold row req now hst
    have hu := stepsUpdate_timestamps α stringify bucket threshold row req now
    rw [hu.2, hst]
    simp [applyStepStatusClause]

/-- C4 witness: a first update of the sample pending step to completed stamps
completed_at at time 5. -/
theorem step_terminal_timestamps_witness :
    (stepsUpdate Unit (fun _ => "[]") (Bucket.mk []) 10 sampleStepRow
        (statusOnlyStepReq StepStatus.completed) 5).2.completed_at = some 5 :=
  (step_terminal_timestamps Unit (fun _ => "[]")).1 (Bucket.mk []) 10 sampleStepRow
    (statusOnlyStepReq StepStatus.completed) 5 StepStatus.completed rfl
    (Or.inl rfl) rfl

/-! ## Idempotent queue dispatcher (src/queue/index.ts)

The queue_messages table is the list of rows in insertion order; broker sends
are recorded in a send log.  generateMessageId draws a crypto-random
identifier (src/utils/ids.ts); the drawn identifier enters the embedding as
the first parameter of enqueue, and its freshness appears as explicit
distinctness hypotheses where the claim needs it. -/

/-- A row of the queue_messages table. -/
structure QueueMessageRow where
  message_id : String
  queue_name : String
  deployment_id : Option String
  idempotency_key : Option String
  message_data : String
  deriving DecidableEq, Repr

/-- The envelope handed to the broker by env.QUEUE.send. -/
structure QueueEnvelope where
  messageId : String
  queueName : String
  message : String
  metaDeploymentId : Option String
  metaIdempotencyKey : Option String
  deriving DecidableEq, Repr

/-- Dispatcher state: the queue_messages table and the broker send log. -/
structure QueueState where
  messages : List QueueMessageRow
  sent : List QueueEnvelope
  deriving DecidableEq, Repr

/-- JS truthiness of an optional string: undefined and the empty string are
both falsy, as in the checks opts?.idempotencyKey and opts?.deploymentId. -/
def truthyStr : Option String → Option String
  | none => none
  | some s => if s = "" then none else some s

/-- The D1 lookup predicate of the idempotency check: idempotency_key equals
the key and queue_name equals the queue. -/
def keyMatches (k queueName : String) (m : QueueMessageRow) : Bool :=
  m.idempotency_key == some k && m.queue_name == queueName

/-- The fresh-message path of queue(): insert the tracking row (with falsy
optional fields stored as null) and send the envelope to the broker. -/
def enqueueFresh (messageId queueName message : String)
    (deploymentId idempotencyKey : Option String) (st : QueueState) :
    String × QueueState :=
  let row : QueueMessageRow :=
    { message_id := messageId
      queue_name := queueName
      deployment_id := truthyStr deploymentId
      idempotency_key := truthyStr idempotencyKey
      message_data := message }
  let env : QueueEnvelope :=
    { messageId := messageId
      queueName := queueName
      message := message
      metaDeploymentId := deploymentId
      metaIdempotencyKey := idempotencyKey }
  (messageId, { messages := st.messages ++ [row], sent := st.sent ++ [env] })

/-- queue() from src/queue/index.ts: draw a message identifier; when a truthy
idempotency key is supplied and a row already exists for (key, queueName),
return the existing identifier without inserting or sending; otherwise insert
the tracking row and send to the broker. -/
def enqueue (messageId queueName message : String)
    (deploymentId idempotencyKey : Option String) (st : QueueState) :
    String × QueueState :=
  match truthyStr idempotencyKey with
  | some k =>
      match st.messages.find? (keyMatches k queueName) with
      | some existing => (existing.message_id, st)
      | none => enqueueFresh messageId queueName message deploymentId idempotencyKey st
  | none => enqueueFresh messageId queueName message deploymentId idempotencyKey st

theorem find?_append_of_none {α : Type} (p : α → Bool) (l1 l2 : List α)
    (h : l1.find? p = none) : (l1 ++ l2).find? p = l2.find? p := by
  induction l1 with
  | nil => rfl
  | cons a l ih =>
      rw [List.find?_cons] at h
      cases hp : p a with
      | true => rw [hp] at h; exact absurd h (by simp)
      | false =>
          rw [hp] at h
          rw [List.cons_append, List.find?_cons, hp]
          exact ih h

/-- C6: on the same queue name, a second enqueue with the same truthy
idempotency key returns the identifier of the first call and changes neither
the message table nor the broker send log; and two enqueues with distinct
keys, both fresh for the queue and drawing distinct generated identifiers,
return distinct message identifiers. -/
theorem enqueue_idempotent_key :
    (∀ (st : QueueState) (queueName msg1 msg2 id1 id2 : String)
        (dep1 dep2 : Option String) (k : String),
        k ≠ "" →
        enqueue id2 queueName msg2 dep2 (some k)
            (enqueue id1 queueName msg1 dep1 (some k) st).2 =
          ((enqueue id1 queueName msg1 dep1 (some k) st).1,
           (enqueue id1 queueName msg1 dep1 (some k) st).2)) ∧
    (∀ (st : QueueState) (queueName msg1 msg2 id1 id2 : String)
        (dep1 dep2 : Option String) (k1 k2 : String),
        k1 ≠ "" → k2 ≠ "" → k1 ≠ k2 → id1 ≠ id2 →
        st.messages.find? (keyMatches k1 queueName) = none →
        st.messages.find? (keyMatches k2 queueName) = none →
        (enqueue id2 queueName msg2 dep2 (some k2)
            (enqueue id1 queueName msg1 dep1 (some k1) st).2).1 ≠
          (enqueue id1 queueName msg1 dep1 (some k1) st).1) := by
  constructor
  · intro st queueName msg1 msg2 id1 id2 dep1 dep2 k hk
    have htr : truthyStr (some k) = some k := by simp [truthyStr, hk]
    cases hfind : st.messages.find? (keyMatches k queueName) with
    | some existing =>
        simp [enqueue, htr, hfind]
    | none =>
        have hrow : keyMatches k queueName
            { message_id := id1, queue_name := queueName,
              deployment_id := truthyStr dep1, idempotency_key := some k,
              message_data := msg1 } = true := by
          simp [keyMatches]
        have happ := find?_append_of_none (keyMatches k queueName) st.messages
          [{ message_id := id1, queue_name := queueName,
             deployment_id := truthyStr dep1, idempotency_key := some k,
             message_data := msg1 }] hfind
        simp [enqueue, htr, hfind, enqueueFresh, happ, List.find?_cons, hrow]
  · intro st queueName msg1 msg2 id1 id2 dep1 dep2 k1 k2 hk1 hk2 hne hid hfind1 hfind2
    have htr1 : truthyStr (some k1) = some k1 := by simp [truthyStr, hk1]
    have htr2 : truthyStr (some k2) = some k2 := by simp [truthyStr, hk2]
    have hrow : keyMatches k2 queueName
        { message_id := id1, queue_name := queueName,
          deployment_id := truthyStr dep1, idempotency_key := some k1,
          message_data := msg1 } = false := by
      simp [keyMatches]
      intro h
      exact hne h
    have happ := find?_append_of_none (keyMatches k2 queueName) st.messages
      [{ message_id := id1, queue_name := queueName,
         deployment_id := truthyStr dep1, idempotency_key := some k1,
         message_data := msg1 }] hfind2
    simp [enqueue, htr1, htr2, hfind1, hfind2, enqueueFresh, happ,
      List.find?_cons, hrow]
    exact Ne.symm hid

/-- C6 witness: starting from the empty dispatcher state, re-enqueueing with
key "idem" returns the first identifier unchanged, and keys "idem" and "jdem"
with fresh generated identifiers give distinct message identifiers. -/
theorem enqueue_idempotent_key_witness :
    enqueue "msg_2" "wkf_q" "b" none (some "idem")
        (enqueue "msg_1" "wkf_q" "a" none (some "idem") (QueueState.mk [] [])).2 =
      ((enqueue "msg_1" "wkf_q" "a" none (some "idem") (QueueState.mk [] [])).1,
       (enqueue "msg_1" "wkf_q" "a" none (some "idem") (QueueState.mk [] [])).2) ∧
    (enqueue "msg_2" "wkf_q" "b" none (some "jdem")
        (enqueue "msg_1" "wkf_q" "a" none (some "idem") (QueueState.mk [] [])).2).1 ≠
      (enqueue "msg_1" "wkf_q" "a" none (some "idem") (QueueState.mk [] [])).1 :=
  ⟨enqueue_idempotent_key.1 (QueueState.mk [] []) "wkf_q" "a" "b" "msg_1" "msg_2"
      none none "idem" (by decide),
   enqueue_idempotent_key.2 (QueueState.mk [] []) "wkf_q" "a" "b" "msg_1" "msg_2"
      none none "idem" "jdem" (by decide) (by decide) (by decide) (by decide)
      rfl rfl⟩

/-! ## Cursor codec (src/utils/pagination.ts)

encodeCursor is btoa(JSON.stringify(cursor)) and decodeCursor is
JSON.parse(atob(cursor)) inside a try/catch that converts any throw into the
invalid-cursor error; the cast "as PaginationCursor" performs no validation,
so decodeCursor hands back whatever JSON value the string encoded.  The
platform pieces are modelled byte-exactly on the fragment the codec
exercises:
- text is a list of code units below 256 (btoa throws above 255; identifier
  code units below 32 would be emitted by JSON.stringify as backslash-u
  escapes, which lie outside the modelled fragment - hence the bounds
  hypotheses on the round-trip theorem);
- b64encode and b64decode implement standard padded base64, agreeing with
  btoa, and with atob on padded whitespace-free input;
- the JSON fragment covers objects with string keys and string, natural
  number or object values, without whitespace: the closure of everything the
  codec emits, plus the empty object. -/

/-- The base64 alphabet used by btoa and atob. -/
def b64Alphabet : List Char :=
  "ABCDEFGHIJKLMNOPQRSTUVWXYZabcdefghijklmnopqrstuvwxyz0123456789+/".data

/-- Encoding of one 6-bit group. -/
def b64encChar (k : Nat) : Char := b64Alphabet.getD k 'A'

/-- Decoding of one base64 character; characters outside the alphabet
(including the padding sign) decode to none. -/
def b64decChar (c : Char) : Option Nat :=
  let i := b64Alphabet.indexOf c
  if i < 64 then some i else none

/-- btoa on a list of code units: three bytes become four characters, with
padding for a trailing group of one or two bytes. -/
def b64encode : List Nat → List Char
  | [] => []
  | [a] => [b64encChar (a / 4), b64encChar (a % 4 * 16), '=', '=']
  | [a, b] => [b64encChar (a / 4), b64encChar (a % 4 * 16 + b / 16),
               b64encChar (b % 16 * 4), '=']
  | a :: b :: c :: rest =>
      b64encChar (a / 4) :: b64encChar (a % 4 * 16 + b / 16) ::
        b64encChar (b % 16 * 4 + c / 64) :: b64encChar (c % 64) :: b64encode rest

/-- atob on padded whitespace-free input: four characters become three bytes,
a final group with padding becoming one or two bytes; anything else throws,
which appears as none. -/
def b64decode : List Char → Option (List Nat)
  | [] => some []
  | w :: x :: y :: z :: rest =>
      match b64decChar w, b64decChar x with
      | some d1, some d2 =>
          if y = '=' then
            if z = '=' ∧ rest = [] then some [d1 * 4 + d2 / 16] else none
          else
            match b64decChar y with
            | some d3 =>
                if z = '=' then
                  if rest = [] then some [d1 * 4 + d2 / 16, d2 % 16 * 16 + d3 / 4]
                  else none
                else
                  match b64decChar z, b64decode rest with
                  | some d4, some bs =>
                      some ((d1 * 4 + d2 / 16) :: (d2 % 16 * 16 + d3 / 4) ::
                        (d3 % 4 * 64 + d4) :: bs)
                  | _, _ => none
            | none => none
      | _, _ => none
  | _ => none

/-- A JSON value in the fragment the cursor codec exercises: strings (as code
unit lists), natural numbers and objects. -/
inductive Jval where
  | str (s : List Nat)
  | num (n : Nat)
  | obj (members : List (List Nat × Jval))

/-- JSON.stringify string-body escaping on the fragment without control
characters: quote and backslash get a backslash escape, everything else is
emitted verbatim. -/
def escapeBytes : List Nat → List Nat
  | [] => []
  | b :: bs =>
      if b = 34 then 92 :: 34 :: escapeBytes bs
      else if b = 92 then 92 :: 92 :: escapeBytes bs
      else b :: escapeBytes bs

/-- A serialized JSON string: quote, escaped body, quote. -/
def serializeString (s : List Nat) : List Nat :=
  34 :: (escapeBytes s ++ [34])

/-- Decimal digit bytes of a natural number, most significant first, as
JSON.stringify prints a nonnegative integer. -/
def natToDigitBytes (n : Nat) : List Nat :=
  if n < 10 then [48 + n]
  else natToDigitBytes (n / 10) ++ [48 + n % 10]
decreasing_by exact Nat.div_lt_self (by omega) (by omega)

/-- JSON string-body parser: consumes up to the closing quote, resolving the
two-character escapes and rejecting raw control characters, and returns the
body together with the remaining input. -/
def parseStringBody : List Nat → Option (List Nat × List Nat)
  | [] => none
  | b :: bs =>
      if b = 34 then some ([], bs)
      else if b = 92 then
        match bs with
        | [] => none
        | e :: bs2 =>
            if e = 34 ∨ e = 92 then
              (parseStringBody bs2).map (fun p => (e :: p.1, p.2))
            else none
      else if b < 32 then none
      else (parseStringBody bs).map (fun p => (b :: p.1, p.2))

/-- Splits the longest leading run of decimal digit bytes from the input. -/
def takeDigits : List Nat → List Nat × List Nat
  | [] => ([], [])
  | b :: bs =>
      if 48 ≤ b ∧ b ≤ 57 then
        let p := takeDigits bs
        (b :: p.1, p.2)
      else ([], b :: bs)

/-- The natural number denoted by a big-endian run of digit bytes. -/
def digitsToNat (ds : List Nat) : Nat :=
  ds.foldl (fun acc d => acc * 10 + (d - 48)) 0

/-- JSON number parser on the nonnegative integer fragment. -/
def parseJsonNat (bs : List Nat) : Option (Nat × List Nat) :=
  match (takeDigits bs).1 with
  | [] => none
  | _ :: _ => some (digitsToNat (takeDigits bs).1, (takeDigits bs).2)

mutual

/-- JSON.parse value parser on the fragment, fuelled by input length: a quote
opens a string, an opening brace an object (empty or via parseMembers), a
digit a number; everything else is a parse error. -/
def parseJval : Nat → List Nat → Option (Jval × List Nat)
  | 0, _ => none
  | Nat.succ fuel, bs =>
      match bs with
      | [] => none
      | b :: rest =>
          if b = 34 then
            (parseStringBody rest).map (fun p => (Jval.str p.1, p.2))
          else if b = 123 then
            match rest with
            | 125 :: rest2 => some (Jval.obj [], rest2)
            | _ => (parseMembers fuel rest).map (fun p => (Jval.obj p.1, p.2))
          else if 48 ≤ b ∧ b ≤ 57 then
            (parseJsonNat (b :: rest)).map (fun p => (Jval.num p.1, p.2))
          else none

/-- Parser for a nonempty member list of an object, positioned after the
opening brace: string key, colon, value, then a comma continuing the list or
the closing brace ending it. -/
def parseMembers : Nat → List Nat → Option (List (List Nat × Jval) × List Nat)
  | 0, _ => none
  | Nat.succ fuel, bs =>
      match bs with
      | 34 :: rest =>
          match parseStringBody rest with
          | none => none
          | some (key, rest1) =>
              match rest1 with
              | 58 :: rest2 =>
                  match parseJval fuel rest2 with
                  | none => none
                  | some (v, rest3) =>
                      match rest3 with
                      | 44 :: rest4 =>
                          (parseMembers fuel rest4).map
                            (fun p => ((key, v) :: p.1, p.2))
                      | 125 :: rest4 => some ([(key, v)], rest4)
                      | _ => none
              | _ => none
      | _ => none

end

/-- JSON.parse of a full text in the fragment: the parse must consume the
whole input. -/
def jsonParseBytes (bs : List Nat) : Option Jval :=
  match parseJval (bs.length + 1) bs with
  | some (v, []) => some v
  | _ => none

/-- The decoded pagination cursor structure: lastId as code units of the
identifier string, lastTimestamp a millisecond timestamp. -/
structure PaginationCursor where
  lastId : List Nat
  lastTimestamp : Nat
  deriving DecidableEq, Repr

/-- Code units of a Lean string. -/
def strBytes (s : String) : List Nat := s.data.map Char.toNat

/-- JSON.stringify of the cursor object, with its two properties in insertion
order lastId then lastTimestamp. -/
def cursorJsonBytes (c : PaginationCursor) : List Nat :=
  123 :: (serializeString (strBytes "lastId") ++ 58 ::
    (serializeString c.lastId ++ 44 ::
      (serializeString (strBytes "lastTimestamp") ++ 58 ::
        (natToDigitBytes c.lastTimestamp ++ [125]))))

/-- The JSON value denoted by a cursor. -/
def cursorJval (c : PaginationCursor) : Jval :=
  Jval.obj [(strBytes "lastId", Jval.str c.lastId),
            (strBytes "lastTimestamp", Jval.num c.lastTimestamp)]

/-- The invalid-cursor error thrown by decodeCursor. -/
inductive CursorError where
  | invalidCursor
  deriving DecidableEq, Repr

/-- encodeCursor from pagination.ts: btoa of the serialized cursor object. -/
def encodeCursor (c : PaginationCursor) : String :=
  String.mk (b64encode (cursorJsonBytes c))

/-- decodeCursor from pagination.ts: atob then JSON.parse, any throw becoming
the invalid-cursor error; the result is returned without shape validation. -/
def decodeCursor (s : String) : Except CursorError Jval :=
  match b64decode s.data with
  | none => Except.error CursorError.invalidCursor
  | some bs =>
      match jsonParseBytes bs with
      | none => Except.error CursorError.invalidCursor
      | some v => Except.ok v

theorem b64decChar_encChar : ∀ k, k < 64 → b64decChar (b64encChar k) = some k := by
  decide

theorem b64encChar_ne_pad : ∀ k, k < 64 → b64encChar k ≠ '=' := by
  decide

theorem b64decode_encode (bs : List Nat) (h : ∀ b ∈ bs, b < 256) :
    b64decode (b64encode bs) = some bs := by
  induction bs using b64encode.induct with
  | case1 => rfl
  | case2 a =>
      have ha : a < 256 := h a (by simp)
      have h1 := b64decChar_encChar (a / 4) (by omega)
      have h2 := b64decChar_encChar (a % 4 * 16) (by omega)
      simp [b64encode, b64decode, h1, h2]
      omega
  | case3 a b =>
      have ha : a < 256 := h a (by simp)
      have hb : b < 256 := h b (by simp)
      have h1 := b64decChar_encChar (a / 4) (by omega)
      have h2 := b64decChar_encChar (a % 4 * 16 + b / 16) (by omega)
      have h3 := b64decChar_encChar (b % 16 * 4) (by omega)
      have hy := b64encChar_ne_pad (b % 16 * 4) (by omega)
      simp [b64encode, b64decode, h1, h2, h3, hy]
      constructor
      · omega
      · omega
  | case4 a b c rest ih =>
      have ha : a < 256 := h a (by simp)
      have hb : b < 256 := h b (by simp)
      have hc : c < 256 := h c (by simp)
      have hrest : ∀ x ∈ rest, x < 256 := by
        intro x hx
        exact h x (by simp [hx])
      have h1 := b64decChar_encChar (a / 4) (by omega)
      have h2 := b64decChar_encChar (a % 4 * 16 + b / 16) (by omega)
      have h3 := b64decChar_encChar (b % 16 * 4 + c / 64) (by omega)
      have h4 := b64decChar_encChar (c % 64) (by omega)
      have hy := b64encChar_ne_pad (b % 16 * 4 + c / 64) (by omega)
      have hz := b64encChar_ne_pad (c % 64) (by omega)
      simp [b64encode, b64decode, h1, h2, h3, h4, hy, hz, ih hrest]
      refine ⟨?_, ?_, ?_⟩ <;> omega

theorem parseStringBody_escape (s : List Nat) :
    ∀ rest : List Nat, (∀ b ∈ s, 32 ≤ b) →
    parseStringBody (escapeBytes s ++ 34 :: rest) = some (s, rest) := by
  induction s with
  | nil =>
      intro rest _
      show parseStringBody (34 :: rest) = some ([], rest)
      rw [parseStringBody.eq_def]
      simp
  | cons b s2 ih =>
      intro rest hs
      have hb : 32 ≤ b := hs b (by simp)
      have hs2 : ∀ x ∈ s2, 32 ≤ x := fun x hx => hs x (by simp [hx])
      by_cases h34 : b = 34
      · subst h34
        rw [show escapeBytes (34 :: s2) ++ 34 :: rest =
            92 :: 34 :: (escapeBytes s2 ++ 34 :: rest) by simp [escapeBytes]]
        rw [parseStringBody.eq_def]
        simp [ih rest hs2]
      · by_cases h92 : b = 92
        · subst h92
          rw [show escapeBytes (92 :: s2) ++ 34 :: rest =
              92 :: 92 :: (escapeBytes s2 ++ 34 :: rest) by simp [escapeBytes]]
          rw [parseStringBody.eq_def]
          simp [ih rest hs2]
        · have hctl : ¬ b < 32 := by omega
          rw [show escapeBytes (b :: s2) ++ 34 :: rest =
              b :: (escapeBytes s2 ++ 34 :: rest) by simp [escapeBytes, h34, h92]]
          rw [parseStringBody.eq_def]
          simp [h34, h92, hctl, ih rest hs2]

theorem natToDigitBytes_digits (n : Nat) :
    ∀ d ∈ natToDigitBytes n, 48 ≤ d ∧ d ≤ 57 := by
  induction n using Nat.strong_induction_on with
  | _ n ih =>
      rw [natToDigitBytes]
      by_cases h : n < 10
      · simp [h]
        omega
      · simp only [h, if_false]
        intro d hd
        rw [List.mem_append] at hd
        rcases hd with hd | hd
        · exact ih (n / 10) (Nat.div_lt_self (by omega) (by omega)) d hd
        · simp at hd
          omega

theorem natToDigitBytes_ne_nil (n : Nat) : natToDigitBytes n ≠ [] := by
  rw [natToDigitBytes]
  by_cases h : n < 10 <;> simp [h]

theorem digitsToNat_natToDigitBytes (n : Nat) :
    digitsToNat (natToDigitBytes n) = n := by
  induction n using Nat.strong_induction_on with
  | _ n ih =>
      rw [natToDigitBytes]
      by_cases h : n < 10
      · simp [h, digitsToNat]
      · simp only [h, if_false]
        rw [digitsToNat, List.foldl_append]
        have := ih (n / 10) (Nat.div_lt_self (by omega) (by omega))
        rw [digitsToNat] at this
        rw [this]
        simp
        omega

theorem takeDigits_append (ds : List Nat) :
    ∀ rest : List Nat, (∀ d ∈ ds, 48 ≤ d ∧ d ≤ 57) →
    (∀ r, rest.head? = some r → ¬ (48 ≤ r ∧ r ≤ 57)) →
    takeDigits (ds ++ rest) = (ds, rest) := by
  induction ds with
  | nil =>
      intro rest _ hrest
      cases rest with
      | nil => rfl
      | cons r rest2 =>
          have := hrest r rfl
          simp [takeDigits, this]
  | cons d ds2 ih =>
      intro rest hds hrest
      have hd : 48 ≤ d ∧ d ≤ 57 := hds d (by simp)
      have hds2 : ∀ x ∈ ds2, 48 ≤ x ∧ x ≤ 57 := fun x hx => hds x (by simp [hx])
      simp [takeDigits, hd, ih rest hds2 hrest]

theorem parseJsonNat_digits (n : Nat) (rest : List Nat)
    (hrest : ∀ r, rest.head? = some r → ¬ (48 ≤ r ∧ r ≤ 57)) :
    parseJsonNat (natToDigitBytes n ++ rest) = some (n, rest) := by
  have ht : takeDigits (natToDigitBytes n ++ rest) = (natToDigitBytes n, rest) :=
    takeDigits_append _ rest (natToDigitBytes_digits n) hrest
  unfold parseJsonNat
  rw [ht]
  cases hd : natToDigitBytes n with
  | nil => exact absurd hd (natToDigitBytes_ne_nil n)
  | cons d ds =>
      rw [← hd, digitsToNat_natToDigitBytes]
      simp [hd]

theorem parseJval_str (fuel : Nat) (s rest : List Nat) (hs : ∀ b ∈ s, 32 ≤ b) :
    parseJval (fuel + 1) (serializeString s ++ rest) = some (Jval.str s, rest) := by
  have hser : serializeString s ++ rest = 34 :: (escapeBytes s ++ 34 :: rest) := by
    simp [serializeString]
  rw [hser]
  simp [parseJval, parseStringBody_escape s rest hs]

theorem parseJval_nat (fuel : Nat) (n : Nat) (rest : List Nat)
    (hrest : ∀ r, rest.head? = some r → ¬ (48 ≤ r ∧ r ≤ 57)) :
    parseJval (fuel + 1) (natToDigitBytes n ++ rest) = some (Jval.num n, rest) := by
  have hnum := parseJsonNat_digits n rest hrest
  cases hd : natToDigitBytes n with
  | nil => exact absurd hd (natToDigitBytes_ne_nil n)
  | cons d ds =>
      have hdig : 48 ≤ d ∧ d ≤ 57 := natToDigitBytes_digits n d (by rw [hd]; simp)
      have h34 : ¬ d = 34 := by omega
      have h123 : ¬ d = 123 := by omega
      rw [hd] at hnum
      simp only [List.cons_append] at hnum ⊢
      simp [parseJval, h34, h123, hdig.1, hdig.2, hnum]

theorem parseJval_cursor (G : Nat) (c : PaginationCursor)
    (hid : ∀ b ∈ c.lastId, 32 ≤ b) :
    parseJval (G + 4) (cursorJsonBytes c) = some (cursorJval c, []) := by
  have hkey1 : ∀ b ∈ strBytes "lastId", 32 ≤ b := by decide
  have hkey2 : ∀ b ∈ strBytes "lastTimestamp", 32 ≤ b := by decide
  cases hd : natToDigitBytes c.lastTimestamp with
  | nil => exact absurd hd (natToDigitBytes_ne_nil c.lastTimestamp)
  | cons d ds =>
      have hdig : 48 ≤ d ∧ d ≤ 57 :=
        natToDigitBytes_digits c.lastTimestamp d (by rw [hd]; simp)
      have h34 : ¬ d = 34 := by omega
      have h123 : ¬ d = 123 := by omega
      have hnum : parseJsonNat (d :: (ds ++ [125])) =
          some (c.lastTimestamp, [125]) := by
        have h := parseJsonNat_digits c.lastTimestamp [125]
          (by intro r hr; simp at hr; omega)
        rw [hd] at h
        simpa using h
      have hps_key2 : parseStringBody (escapeBytes (strBytes "lastTimestamp") ++
          34 :: (58 :: (d :: (ds ++ [125])))) =
          some (strBytes "lastTimestamp", 58 :: (d :: (ds ++ [125]))) :=
        parseStringBody_escape _ _ hkey2
      have hps_val : parseStringBody (escapeBytes c.lastId ++
          34 :: (44 :: (34 :: (escapeBytes (strBytes "lastTimestamp") ++
            34 :: (58 :: (d :: (ds ++ [125]))))))) =
          some (c.lastId, 44 :: (34 :: (escapeBytes (strBytes "lastTimestamp") ++
            34 :: (58 :: (d :: (ds ++ [125])))))) :=
        parseStringBody_escape _ _ hid
      have hps_key1 : parseStringBody (escapeBytes (strBytes "lastId") ++
          34 :: (58 :: (34 :: (escapeBytes c.lastId ++
            34 :: (44 :: (34 :: (escapeBytes (strBytes "lastTimestamp") ++
              34 :: (58 :: (d :: (ds ++ [125])))))))))) =
          some (strBytes "lastId", 58 :: (34 :: (escapeBytes c.lastId ++
            34 :: (44 :: (34 :: (escapeBytes (strBytes "lastTimestamp") ++
              34 :: (58 :: (d :: (ds ++ [125]))))))))) :=
        parseStringBody_escape _ _ hkey1
      have hshape : cursorJsonBytes c =
          123 :: (34 :: (escapeBytes (strBytes "lastId") ++
            34 :: (58 :: (34 :: (escapeBytes c.lastId ++
              34 :: (44 :: (34 :: (escapeBytes (strBytes "lastTimestamp") ++
                34 :: (58 :: (d :: (ds ++ [125]))))))))))) := by
        simp [cursorJsonBytes, serializeString, hd]
      rw [hshape]
      simp only [parseJval, parseMembers]
      simp [hps_key1, hps_val, hps_key2, hnum, hdig.1, hdig.2, h34, h123, cursorJval]

theorem jsonParseBytes_cursor (c : PaginationCursor)
    (hid : ∀ b ∈ c.lastId, 32 ≤ b) :
    jsonParseBytes (cursorJsonBytes c) = some (cursorJval c) := by
  have hlen : 3 ≤ (cursorJsonBytes c).length := by
    simp [cursorJsonBytes, serializeString]
    omega
  obtain ⟨G, hG⟩ : ∃ G, (cursorJsonBytes c).length + 1 = G + 4 :=
    ⟨(cursorJsonBytes c).length - 3, by omega⟩
  unfold jsonParseBytes
  rw [hG, parseJval_cursor G c hid]

theorem escapeBytes_mem (s : List Nat) : ∀ b ∈ escapeBytes s, b = 92 ∨ b ∈ s := by
  induction s with
  | nil => simp [escapeBytes]
  | cons a s2 ih =>
      intro b hb
      by_cases h34 : a = 34
      · subst h34
        simp [escapeBytes] at hb
        rcases hb with rfl | rfl | hb
        · exact Or.inl rfl
        · exact Or.inr (by simp)
        · rcases ih b hb with h | h
          · exact Or.inl h
          · exact Or.inr (by simp [h])
      · by_cases h92 : a = 92
        · subst h92
          simp [escapeBytes] at hb
          rcases hb with rfl | hb
          · exact Or.inl rfl
          · rcases ih b hb with h | h
            · exact Or.inl h
            · exact Or.inr (by simp [h])
        · simp [escapeBytes, h34, h92] at hb
          rcases hb with rfl | hb
          · exact Or.inr (by simp)
          · rcases ih b hb with h | h
            · exact Or.inl h
            · exact Or.inr (by simp [h])

theorem cursorJsonBytes_lt_256 (c : PaginationCursor)
    (hid : ∀ b ∈ c.lastId, b < 256) : ∀ b ∈ cursorJsonBytes c, b < 256 := by
  have h1 : ∀ x ∈ escapeBytes (strBytes "lastId"), x < 256 := by decide
  have h2 : ∀ x ∈ escapeBytes (strBytes "lastTimestamp"), x < 256 := by decide
  have h3 : ∀ x ∈ escapeBytes c.lastId, x < 256 := by
    intro x hx
    rcases escapeBytes_mem c.lastId x hx with h | h
    · omega
    · exact hid x h
  have h4 : ∀ x ∈ natToDigitBytes c.lastTimestamp, x < 256 := by
    intro x hx
    have := natToDigitBytes_digits c.lastTimestamp x hx
    omega
  simp only [cursorJsonBytes, serializeString, List.forall_mem_cons,
    List.forall_mem_append, List.forall_mem_nil]
  and_intros <;> first | omega | trivial

/-- C9 (amended): round trip of the cursor codec, for cursors whose identifier
code units are in the non-escaped btoa-accepted range (at least 32, below
256): decodeCursor of encodeCursor succeeds and returns the JSON object with
exactly the lastId string and lastTimestamp number of the encoded pair. -/
theorem cursor_codec_roundtrip (c : PaginationCursor)
    (hid : ∀ b ∈ c.lastId, 32 ≤ b ∧ b < 256) :
    decodeCursor (encodeCursor c) = Except.ok (cursorJval c) := by
  have h256 : ∀ b ∈ cursorJsonBytes c, b < 256 :=
    cursorJsonBytes_lt_256 c (fun b hb => (hid b hb).2)
  have h32 : ∀ b ∈ c.lastId, 32 ≤ b := fun b hb => (hid b hb).1
  unfold decodeCursor encodeCursor
  rw [show (String.mk (b64encode (cursorJsonBytes c))).data =
      b64encode (cursorJsonBytes c) from rfl]
  rw [b64decode_encode _ h256]
  simp [jsonParseBytes_cursor c h32]

/-- C9 counterexample: the string made of base64 of the two characters of the
empty JSON object text is not the encoding of any (lastId, lastTimestamp)
pair, yet decodeCursor accepts it and returns the empty object instead of
failing with the invalid-cursor error: atob and JSON.parse both succeed and
the cast performs no shape validation. -/
theorem decodeCursor_wrong_shape_accepted :
    decodeCursor "e30=" = Except.ok (Jval.obj []) := rfl

/-- C9 witness: the concrete cursor with identifier wrun_ab and timestamp 5
round-trips to its JSON object. -/
theorem cursor_codec_roundtrip_witness :
    decodeCursor (encodeCursor (PaginationCursor.mk (strBytes "wrun_ab") 5)) =
      Except.ok (cursorJval (PaginationCursor.mk (strBytes "wrun_ab") 5)) :=
  cursor_codec_roundtrip (PaginationCursor.mk (strBytes "wrun_ab") 5) (by decide)

/-! ## Paginated list shaping (src/utils/pagination.ts createPaginatedResponse,
src/storage/runs.ts list)

The rows parameter of listRuns stands for the workflow_runs rows matched by
the WHERE clause (name/status filters plus the cursor predicate) in the ORDER
BY created_at, run_id order of the query; the SQL LIMIT is the take on this
list.  JS truthiness makes a supplied limit of 0 behave exactly like an
absent limit, in both the fetchLimit computation and createPaginatedResponse.
The getId parameter stands for the runId-or-stepId-or-eventId-or-hookId
chain of createPaginatedResponse, which for run rows is the run identifier. -/

/-- Sort order of a list request. -/
inductive SortOrder where
  | asc
  | desc
  deriving DecidableEq, Repr

/-- PaginationOptions: optional limit, cursor and sort order. -/
structure PaginationOptions where
  limit : Option Nat
  cursor : Option String
  sortOrder : Option SortOrder
  deriving DecidableEq, Repr

/-- PaginatedResponse: the page, the next cursor, and the has-more flag. -/
structure PaginatedResponse (α : Type) where
  data : List α
  cursor : Option String
  hasMore : Bool
  deriving DecidableEq, Repr

/-- The limit seen through JS truthiness: undefined pagination, undefined
limit and limit 0 are all falsy. -/
def truthyLimit : Option PaginationOptions → Option Nat
  | none => none
  | some p =>
      match p.limit with
      | none => none
      | some 0 => none
      | some (Nat.succ k) => some (Nat.succ k)

/-- createPaginatedResponse from pagination.ts: with a falsy limit, return all
items with no cursor and hasMore false; otherwise hasMore holds when more
than limit items were fetched, the page is items truncated to limit in that
case, and the cursor encodes the identifier and timestamp of the last row of
the returned page when hasMore and the page is nonempty. -/
def createPaginatedResponse (α : Type) (items : List α)
    (pagination : Option PaginationOptions) (getId : α → String)
    (getTimestamp : α → Nat) : PaginatedResponse α :=
  match truthyLimit pagination with
  | none => { data := items, cursor := none, hasMore := false }
  | some limit =>
      let hasMore := decide (limit < items.length)
      let data := if limit < items.length then items.take limit else items
      let cursor :=
        if hasMore then
          (data.getLast?).map (fun last =>
            encodeCursor (PaginationCursor.mk (strBytes (getId last))
              (getTimestamp last)))
        else none
      { data := data, cursor := cursor, hasMore := hasMore }

/-- runs.list from runs.ts: fetch limit + 1 rows when a truthy limit is
supplied (all matching rows otherwise) and shape the page through
createPaginatedResponse. -/
def listRuns (rows : List WorkflowRunRow)
    (pagination : Option PaginationOptions) : PaginatedResponse WorkflowRunRow :=
  let fetchLimit := (truthyLimit pagination).map (fun l => l + 1)
  let results :=
    match fetchLimit with
    | none => rows
    | some l => rows.take l
  createPaginatedResponse WorkflowRunRow results pagination
    (fun row => row.run_id) (fun row => row.created_at)

/-- A concrete pending run row for counterexample and witness. -/
def sampleRunRow : WorkflowRunRow :=
  { run_id := "wrun_a"
    deployment_id := "d"
    workflow_name := "wf"
    status := WorkflowRunStatus.pending
    input_type := "inline"
    input_data := "[]"
    output_type := none
    output_data := none
    execution_context := none
    error := none
    error_code := none
    created_at := 7
    updated_at := 7
    started_at := none
    completed_at := none }

/-- C5 counterexample: a list call with the supplied limit 0 over one matching
row.  The claim requires limit + 1 = 1 row to be requested, the extra row to
be dropped and hasMore to be true; the implementation treats the falsy limit
0 as no limit at all and returns the full row set with hasMore false and no
cursor. -/
theorem pagination_limit_zero_counterexample :
    listRuns [sampleRunRow]
        (some (PaginationOptions.mk (some 0) none none)) =
      PaginatedResponse.mk [sampleRunRow] none false := rfl

/-- C5 (amended): for every supplied positive limit, limit + 1 rows are
requested and: when the extra row is present it is dropped, hasMore is true
and the cursor encodes the (id, timestamp) of the last row of the trimmed
page; when absent there is no cursor and hasMore is false.  With no limit
supplied - or the falsy limit 0 - all matching rows are returned with
hasMore false and no cursor. -/
theorem pagination_page_shaping :
    (∀ (rows : List WorkflowRunRow) (p : PaginationOptions) (l : Nat),
        p.limit = some l → 0 < l →
        listRuns rows (some p) =
          if l < rows.length then
            { data := rows.take l
              cursor := (rows.take l).getLast?.map (fun last =>
                encodeCursor (PaginationCursor.mk (strBytes last.run_id)
                  last.created_at))
              hasMore := true }
          else { data := rows, cursor := none, hasMore := false }) ∧
    (∀ rows : List WorkflowRunRow,
        listRuns rows none = { data := rows, cursor := none, hasMore := false }) ∧
    (∀ (rows : List WorkflowRunRow) (cur : Option String) (so : Option SortOrder),
        listRuns rows (some (PaginationOptions.mk none cur so)) =
          { data := rows, cursor := none, hasMore := false }) ∧
    (∀ (rows : List WorkflowRunRow) (cur : Option String) (so : Option SortOrder),
        listRuns rows (some (PaginationOptions.mk (some 0) cur so)) =
          { data := rows, cursor := none, hasMore := false }) := by
  refine ⟨?_, ?_, ?_, ?_⟩
  · intro rows p l hp hl
    obtain ⟨k, rfl⟩ : ∃ k, l = k + 1 := ⟨l - 1, by omega⟩
    have htr : truthyLimit (some p) = some (k + 1) := by
      simp [truthyLimit, hp]
    by_cases hlen : k + 1 < rows.length
    · rw [if_pos hlen]
      have hlen2 : (rows.take (k + 1 + 1)).length = k + 2 := by
        simp [List.length_take]
        omega
      have hmore : k + 1 < (rows.take (k + 1 + 1)).length := by omega
      have htake : (rows.take (k + 1 + 1)).take (k + 1) = rows.take (k + 1) := by
        rw [List.take_take]
        congr 1
        omega
      simp [listRuns, createPaginatedResponse, htr, hmore, htake, hlen,
        show ¬ rows.length ≤ k + 1 from by omega]
    · rw [if_neg hlen]
      have htake : rows.take (k + 1 + 1) = rows :=
        List.take_of_length_le (by omega)
      have hmore : ¬ (k + 1 < (rows.take (k + 1 + 1)).length) := by
        rw [htake]
        omega
      simp [listRuns, createPaginatedResponse, htr, htake, hmore, hlen]
  · intro rows
    rfl
  · intro rows cur so
    rfl
  · intro rows cur so
    rfl

/-- C5 witness: three matching rows and limit 2 give a trimmed page of two
rows with a cursor and hasMore; the same rows without a limit come back whole
with hasMore false. -/
theorem pagination_page_shaping_witness :
    listRuns [sampleRunRow, sampleRunRow, sampleRunRow]
        (some (PaginationOptions.mk (some 2) none none)) =
      (if 2 < [sampleRunRow, sampleRunRow, sampleRunRow].length then
        { data := [sampleRunRow, sampleRunRow, sampleRunRow].take 2
          cursor := ([sampleRunRow, sampleRunRow, sampleRunRow].take 2).getLast?.map
            (fun last => encodeCursor (PaginationCursor.mk (strBytes last.run_id)
              last.created_at))
          hasMore := true }
      else { data := [sampleRunRow, sampleRunRow, sampleRunRow], cursor := none,
             hasMore := false }) :=
  pagination_page_shaping.1 [sampleRunRow, sampleRunRow, sampleRunRow]
    (PaginationOptions.mk (some 2) none none) 2 rfl (by decide)

end WorkflowWorld
